import Mathlib

/-
  Verification of the shift-selection and driver logic of the <T>LAPACK
  Hessenberg eigenvalue solver (hqr / hqr_formshift, adapted from EISPACK hqr2).

  The shallow embedding models the templated C++ routines over an arbitrary
  linear ordered field `α` (the C++ code is templated over a real scalar type);
  matrices are total functions `ℕ → ℕ → α` and the in-out pointer arguments of
  `hqr_formshift` become explicit inputs and outputs.
-/

set_option autoImplicit false

namespace TlapackHqr

/-- Result record for `hqr_formshift`: the returned status code, the (possibly
updated) matrix `A`, and the values left in the five in-out scalar arguments
`s, t, x, y, w`. -/
structure FormshiftOut (α : Type) where
  status : ℤ
  A : ℕ → ℕ → α
  s : α
  t : α
  x : α
  y : α
  w : α

variable {α : Type} [LinearOrderedField α]

/-- Shallow embedding of `tlapack::hqr_formshift` (hqr_formshift.hpp).
Index arguments (`low, its, itn, en, l`) are natural numbers, mirroring the
unsigned `idx_t`; the scalar type is a linear ordered field, mirroring the
`real_type` template parameter.  The decimal constants `0.75` and `0.4375`
of the source are exactly `3/4` and `7/16`.  The in-place diagonal update of
the exceptional-shift branch becomes a functional matrix update, and `s` is
read back from the updated matrix exactly as the source reads `A` after the
loop over the diagonal. -/
def hqr_formshift (low : ℕ) (A : ℕ → ℕ → α) (its itn en l : ℕ)
    (s t x y w : α) : FormshiftOut α :=
  let x := A en en
  if l = en then
    ⟨1, A, s, t, x, y, w⟩
  else
    let y := A (en - 1) (en - 1)
    let w := A en (en - 1) * A (en - 1) en
    if l = en - 1 then
      ⟨2, A, s, t, x, y, w⟩
    else if itn = 0 then
      ⟨3, A, s, t, x, y, w⟩
    else if its ≠ 10 ∧ itn ≠ 20 then
      ⟨0, A, s, t, x, y, w⟩
    else
      let t := t + x
      let A2 : ℕ → ℕ → α := fun i j =>
        if i = j ∧ low ≤ i ∧ i ≤ en then A i j - x else A i j
      let s := |A2 en (en - 1)| + |A2 (en - 1) (en - 2)|
      let x := (3 / 4 : α) * s
      let y := x
      let w := -(7 / 16 : α) * s * s
      ⟨0, A2, s, t, x, y, w⟩

/-- Concrete identity-like matrix used to exercise the exceptional-shift
branch of `hqr_formshift` on a window of three rows. -/
def exceptionalInput : ℕ → ℕ → ℚ := fun i j => if i = j then 1 else 0

/-- State threaded through the Driver (hqr) outer iteration: the matrix,
the eigenvalue arrays `wr`/`wi`, the window bottom `en` (an integer, since
it is decremented past `low` on the final deflation), the iteration
counters `its`/`itn`, and the shift scalars `s,t,x,y,w` that persist
across calls to the shift policy. -/
structure DriverState (α : Type) where
  A : ℕ → ℕ → α
  wr : ℕ → α
  wi : ℕ → α
  en : ℤ
  its : ℕ
  itn : ℕ
  s : α
  t : α
  x : α
  y : α
  w : α

/-- Modelled from the spec: the 2×2-block resolution used by the Driver on
status 2 (hqr.hpp / hqr_schurToEigen.hpp are not under src/).  Per §4.1 the
discriminant is `((x-y)/2)^2 + w`; if nonnegative the block holds two real
eigenvalues `(x+y)/2 ± sqrt(disc)` (zero imaginary parts), otherwise a
complex-conjugate pair with common real part `(x+y)/2` and imaginary parts
`± sqrt(-disc)`, the positive one first (rows `en-1, en`).  The square root
is passed in as the external scalar primitive `sq`. -/
def resolveSchurPair (sq : α → α) (x y w : α) : (α × α) × (α × α) :=
  let p := (x + y) / 2
  let d := ((x - y) / 2) * ((x - y) / 2) + w
  if 0 ≤ d then ((p + sq d, 0), (p - sq d, 0))
  else ((p, sq (-d)), (p, -sq (-d)))

/-- State update for a status-1 deflation: record one real eigenvalue
`wr(en) = x`, `wi(en) = 0`, shrink the window by one row and reset `its`. -/
def deflate1 (st : DriverState α) (en : ℕ) (r : FormshiftOut α) : DriverState α :=
  { A := r.A,
    wr := fun k => if k = en then r.x else st.wr k,
    wi := fun k => if k = en then 0 else st.wi k,
    en := st.en - 1, its := 0, itn := st.itn,
    s := r.s, t := r.t, x := r.x, y := r.y, w := r.w }

/-- State update for a status-2 deflation: record the resolved pair `p` at
rows `en-1, en`, shrink the window by two rows and reset `its`. -/
def deflate2 (st : DriverState α) (en : ℕ) (r : FormshiftOut α)
    (p : (α × α) × (α × α)) : DriverState α :=
  { A := r.A,
    wr := fun k => if k = en then p.2.1 else if k = en - 1 then p.1.1 else st.wr k,
    wi := fun k => if k = en then p.2.2 else if k = en - 1 then p.1.2 else st.wi k,
    en := st.en - 2, its := 0, itn := st.itn,
    s := r.s, t := r.t, x := r.x, y := r.y, w := r.w }

/-- State returned on budget exhaustion (status 3): the scalars written by
the shift policy are kept, the window and eigenvalue arrays are untouched. -/
def failState (st : DriverState α) (r : FormshiftOut α) : DriverState α :=
  { st with A := r.A, s := r.s, t := r.t, x := r.x, y := r.y, w := r.w }

/-- State update for one QR step: new matrix `A2`, `its` incremented,
`itn` decremented, window unchanged. -/
def stepState (st : DriverState α) (r : FormshiftOut α)
    (A2 : ℕ → ℕ → α) : DriverState α :=
  { A := A2, wr := st.wr, wi := st.wi, en := st.en,
    its := st.its + 1, itn := st.itn - 1,
    s := r.s, t := r.t, x := r.x, y := r.y, w := r.w }

/-- Modelled from the spec: the Driver (hqr) outer iteration of §4.3
(hqr.hpp is not under src/; only its shift policy `hqr_formshift` is, and
it is used verbatim here).  The missing collaborators are parameters:
`findl` is `find_deflation_row`, `qrstep` is the QRStepEngine sweep
(`l en A x y w ↦ A'`), and `resolve` is the 2×2 resolution of status 2.
`fuel` bounds the number of loop iterations (each iteration either deflates
or consumes budget, so any fuel above `itn + en + 2` is enough); running
out of fuel yields `none`.  On success the return code is `0`; on budget
exhaustion it is the 1-based index `en + 1` of the eigenvalue that failed
to converge, per §4.3. -/
def hqrLoop (findl : (ℕ → ℕ → α) → ℕ → ℕ → ℕ)
    (qrstep : ℕ → ℕ → (ℕ → ℕ → α) → α → α → α → (ℕ → ℕ → α))
    (resolve : α → α → α → (α × α) × (α × α))
    (low : ℕ) : ℕ → DriverState α → Option (ℤ × DriverState α)
  | 0, _ => none
  | fuel + 1, st =>
    if st.en < (low : ℤ) then some (0, st)
    else
      let en := st.en.toNat
      let l := findl st.A low en
      let r := hqr_formshift low st.A st.its st.itn en l st.s st.t st.x st.y st.w
      if r.status = 1 then
        hqrLoop findl qrstep resolve low fuel (deflate1 st en r)
      else if r.status = 2 then
        hqrLoop findl qrstep resolve low fuel (deflate2 st en r (resolve r.x r.y r.w))
      else if r.status = 3 then
        some ((en : ℤ) + 1, failState st r)
      else
        hqrLoop findl qrstep resolve low fuel (stepState st r (qrstep l en r.A r.x r.y r.w))

/-- Deflation-row finder that always reports the bottom row (immediate
deflation); used to drive concrete success runs. -/
def bottomFind : (ℕ → ℕ → ℚ) → ℕ → ℕ → ℕ := fun _ _ en => en

/-- Deflation-row finder that always reports the top of the window. -/
def topFind : (ℕ → ℕ → ℚ) → ℕ → ℕ → ℕ := fun _ low _ => low

/-- Trivial QR step (keeps the matrix) used in concrete driver runs. -/
def idStep : ℕ → ℕ → (ℕ → ℕ → ℚ) → ℚ → ℚ → ℚ → (ℕ → ℕ → ℚ) :=
  fun _ _ A _ _ _ => A

/-- Monotone stand-in for the square-root primitive on ℚ (only positivity
on positive arguments matters to the conjugate-pair structure). -/
def idSqrt : ℚ → ℚ := fun a => a

/-- Two-by-two block whose trailing window resolves to a complex-conjugate
pair: diagonal `1, 3`, off-diagonal product `-2`, discriminant `-1`. -/
def complexPairInput : ℕ → ℕ → ℚ := fun i j =>
  if i = 1 ∧ j = 1 then 3
  else if i = 0 ∧ j = 0 then 1
  else if i = 1 ∧ j = 0 then 1
  else if i = 0 ∧ j = 1 then -2
  else 0

/-- Initial driver state over `complexPairInput` with window `[0, 1]`. -/
def c7Start : DriverState ℚ :=
  { A := complexPairInput, wr := fun _ => 0, wi := fun _ => 0, en := 1,
    its := 0, itn := 30, s := 0, t := 0, x := 0, y := 0, w := 0 }

/-- Initial driver state over `exceptionalInput` with window `[0, 1]`. -/
def c8Start : DriverState ℚ :=
  { A := exceptionalInput, wr := fun _ => 0, wi := fun _ => 0, en := 1,
    its := 0, itn := 30, s := 0, t := 0, x := 0, y := 0, w := 0 }

/-- Result of a concrete successful driver run (two 1×1 deflations). -/
def c8Run : ℤ × DriverState ℚ :=
  (hqrLoop bottomFind idStep (resolveSchurPair idSqrt) 0 5 c8Start).getD (0, c8Start)

/-- Result of a concrete successful driver run (one 2×2 deflation). -/
def c7Run : ℤ × DriverState ℚ :=
  (hqrLoop topFind idStep (resolveSchurPair idSqrt) 0 3 c7Start).getD (0, c7Start)

/-- Claim C1: with a window of size 1 (`l = en`), `hqr_formshift` returns
status 1 and sets the output `x` to `A(en,en)`, for any `its` and `itn`. -/
theorem formshift_size_one_deflates (low : ℕ) (A : ℕ → ℕ → α)
    (its itn en l : ℕ) (s t x y w : α) (h : l = en) :
    (hqr_formshift low A its itn en l s t x y w).status = 1 ∧
      (hqr_formshift low A its itn en l s t x y w).x = A en en := by
  subst h
  simp [hqr_formshift]

/-- Witness for C1 at a concrete size-1 window. -/
theorem formshift_size_one_deflates_witness :
    (2 : ℕ) = 2 ∧
      ((hqr_formshift 0 (fun (i j : ℕ) => (i + j : ℚ)) 3 7 2 2 0 0 0 0 0).status = 1 ∧
        (hqr_formshift 0 (fun (i j : ℕ) => (i + j : ℚ)) 3 7 2 2 0 0 0 0 0).x =
          (fun (i j : ℕ) => (i + j : ℚ)) 2 2) :=
  ⟨rfl, formshift_size_one_deflates 0 (fun (i j : ℕ) => (i + j : ℚ)) 3 7 2 2 0 0 0 0 0 rfl⟩

/-- Claim C4: with a window of size 2 (`l = en - 1`, `0 < en`), `hqr_formshift`
returns status 2 with `x = A(en,en)`, `y = A(en-1,en-1)` and
`w = A(en,en-1) * A(en-1,en)`. -/
theorem formshift_size_two_deflates (low : ℕ) (A : ℕ → ℕ → α)
    (its itn en l : ℕ) (s t x y w : α) (hen : 0 < en) (h : l = en - 1) :
    (hqr_formshift low A its itn en l s t x y w).status = 2 ∧
      (hqr_formshift low A its itn en l s t x y w).x = A en en ∧
      (hqr_formshift low A its itn en l s t x y w).y = A (en - 1) (en - 1) ∧
      (hqr_formshift low A its itn en l s t x y w).w =
        A en (en - 1) * A (en - 1) en := by
  have hne : l ≠ en := by omega
  subst h
  simp [hqr_formshift, hne]

/-- Witness for C4 at a concrete size-2 window. -/
theorem formshift_size_two_deflates_witness :
    ((0 : ℕ) < 2 ∧ (1 : ℕ) = 2 - 1) ∧
      ((hqr_formshift 0 (fun (i j : ℕ) => (i * 10 + j : ℚ)) 3 7 2 1 0 0 0 0 0).status = 2 ∧
        (hqr_formshift 0 (fun (i j : ℕ) => (i * 10 + j : ℚ)) 3 7 2 1 0 0 0 0 0).x =
          (fun (i j : ℕ) => (i * 10 + j : ℚ)) 2 2 ∧
        (hqr_formshift 0 (fun (i j : ℕ) => (i * 10 + j : ℚ)) 3 7 2 1 0 0 0 0 0).y =
          (fun (i j : ℕ) => (i * 10 + j : ℚ)) (2 - 1) (2 - 1) ∧
        (hqr_formshift 0 (fun (i j : ℕ) => (i * 10 + j : ℚ)) 3 7 2 1 0 0 0 0 0).w =
          (fun (i j : ℕ) => (i * 10 + j : ℚ)) 2 (2 - 1) *
            (fun (i j : ℕ) => (i * 10 + j : ℚ)) (2 - 1) 2) :=
  ⟨⟨by decide, by decide⟩,
    formshift_size_two_deflates 0 (fun (i j : ℕ) => (i * 10 + j : ℚ)) 3 7 2 1 0 0 0 0 0
      (by decide) (by decide)⟩

/-- Claim C10: on the `l = en` path, `hqr_formshift` writes only `x`: the
status is 1, `x` is `A(en,en)`, and `s`, `t`, `y`, `w` and every entry of `A`
come back unchanged. -/
theorem formshift_size_one_frame (low : ℕ) (A : ℕ → ℕ → α)
    (its itn en l : ℕ) (s t x y w : α) (h : l = en) :
    (hqr_formshift low A its itn en l s t x y w).status = 1 ∧
      (hqr_formshift low A its itn en l s t x y w).x = A en en ∧
      (hqr_formshift low A its itn en l s t x y w).s = s ∧
      (hqr_formshift low A its itn en l s t x y w).t = t ∧
      (hqr_formshift low A its itn en l s t x y w).y = y ∧
      (hqr_formshift low A its itn en l s t x y w).w = w ∧
      (hqr_formshift low A its itn en l s t x y w).A = A := by
  subst h
  simp [hqr_formshift]

/-- Witness for C10 at a concrete size-1 window with nonzero in-out scalars. -/
theorem formshift_size_one_frame_witness :
    (5 : ℕ) = 5 ∧
      ((hqr_formshift 1 (fun (i j : ℕ) => (i + 2 * j : ℚ)) 10 20 5 5 1 2 3 4 6).status = 1 ∧
        (hqr_formshift 1 (fun (i j : ℕ) => (i + 2 * j : ℚ)) 10 20 5 5 1 2 3 4 6).x =
          (fun (i j : ℕ) => (i + 2 * j : ℚ)) 5 5 ∧
        (hqr_formshift 1 (fun (i j : ℕ) => (i + 2 * j : ℚ)) 10 20 5 5 1 2 3 4 6).s = 1 ∧
        (hqr_formshift 1 (fun (i j : ℕ) => (i + 2 * j : ℚ)) 10 20 5 5 1 2 3 4 6).t = 2 ∧
        (hqr_formshift 1 (fun (i j : ℕ) => (i + 2 * j : ℚ)) 10 20 5 5 1 2 3 4 6).y = 4 ∧
        (hqr_formshift 1 (fun (i j : ℕ) => (i + 2 * j : ℚ)) 10 20 5 5 1 2 3 4 6).w = 6 ∧
        (hqr_formshift 1 (fun (i j : ℕ) => (i + 2 * j : ℚ)) 10 20 5 5 1 2 3 4 6).A =
          (fun (i j : ℕ) => (i + 2 * j : ℚ))) :=
  ⟨rfl, formshift_size_one_frame 1 (fun (i j : ℕ) => (i + 2 * j : ℚ)) 10 20 5 5 1 2 3 4 6 rfl⟩

/-- Claim C2: with no deflation (`l + 1 < en`) and remaining budget
(`itn ≠ 0`), the exceptional shift is applied exactly when `its = 10` or
`itn = 20`: `t` is incremented by `x = A(en,en)`, every diagonal entry
`A(i,i)` for `i ∈ [low, en]` is decremented by `x`,
`s` becomes `|A(en,en-1)| + |A(en-1,en-2)|`, `x` and `y` become `0.75*s`,
`w` becomes `-0.4375*s^2`, and the status is 0; otherwise the status is 0
with `s` and `t` unchanged. -/
theorem formshift_exceptional_shift (low : ℕ) (A : ℕ → ℕ → α)
    (its itn en l : ℕ) (s t x y w : α) (h1 : l + 1 < en) (h2 : itn ≠ 0) :
    ((its = 10 ∨ itn = 20) →
      (hqr_formshift low A its itn en l s t x y w).status = 0 ∧
      (hqr_formshift low A its itn en l s t x y w).t = t + A en en ∧
      (∀ i, low ≤ i → i ≤ en →
        (hqr_formshift low A its itn en l s t x y w).A i i = A i i - A en en) ∧
      (hqr_formshift low A its itn en l s t x y w).s =
        |A en (en - 1)| + |A (en - 1) (en - 2)| ∧
      (hqr_formshift low A its itn en l s t x y w).x =
        (3 / 4 : α) * (|A en (en - 1)| + |A (en - 1) (en - 2)|) ∧
      (hqr_formshift low A its itn en l s t x y w).y =
        (3 / 4 : α) * (|A en (en - 1)| + |A (en - 1) (en - 2)|) ∧
      (hqr_formshift low A its itn en l s t x y w).w =
        -(7 / 16 : α) * (|A en (en - 1)| + |A (en - 1) (en - 2)|) *
          (|A en (en - 1)| + |A (en - 1) (en - 2)|)) ∧
    (its ≠ 10 → itn ≠ 20 →
      (hqr_formshift low A its itn en l s t x y w).status = 0 ∧
      (hqr_formshift low A its itn en l s t x y w).s = s ∧
      (hqr_formshift low A its itn en l s t x y w).t = t) := by
  have hne : l ≠ en := by omega
  have hne1 : l ≠ en - 1 := by omega
  have hd1 : ¬(en = en - 1) := by omega
  have hd2 : ¬(en - 1 = en - 2) := by omega
  constructor
  · intro hex
    have hcond : ¬(its ≠ 10 ∧ itn ≠ 20) := by tauto
    simp only [hqr_formshift]
    rw [if_neg hne, if_neg hne1, if_neg h2, if_neg hcond]
    refine ⟨rfl, rfl, fun i hi1 hi2 => ?_, ?_, ?_, ?_, ?_⟩
    · simp [hi1, hi2]
    · simp [hd1, hd2]
    · simp [hd1, hd2]
    · simp [hd1, hd2]
    · simp [hd1, hd2]
  · intro h10 h20
    have hcond : its ≠ 10 ∧ itn ≠ 20 := ⟨h10, h20⟩
    simp only [hqr_formshift]
    rw [if_neg hne, if_neg hne1, if_neg h2, if_pos hcond]
    exact ⟨rfl, rfl, rfl⟩

/-- Witness for C2 on a concrete 3-row window with `its = 10`. -/
theorem formshift_exceptional_shift_witness :
    ((0 : ℕ) + 1 < 2 ∧ (5 : ℕ) ≠ 0) ∧
      ((((10 : ℕ) = 10 ∨ (5 : ℕ) = 20) →
        (hqr_formshift 0 exceptionalInput 10 5 2 0 0 0 0 0 0).status = 0 ∧
        (hqr_formshift 0 exceptionalInput 10 5 2 0 0 0 0 0 0).t =
          0 + exceptionalInput 2 2 ∧
        (∀ i, 0 ≤ i → i ≤ 2 →
          (hqr_formshift 0 exceptionalInput 10 5 2 0 0 0 0 0 0).A i i =
            exceptionalInput i i - exceptionalInput 2 2) ∧
        (hqr_formshift 0 exceptionalInput 10 5 2 0 0 0 0 0 0).s =
          |exceptionalInput 2 (2 - 1)| + |exceptionalInput (2 - 1) (2 - 2)| ∧
        (hqr_formshift 0 exceptionalInput 10 5 2 0 0 0 0 0 0).x =
          (3 / 4 : ℚ) *
            (|exceptionalInput 2 (2 - 1)| + |exceptionalInput (2 - 1) (2 - 2)|) ∧
        (hqr_formshift 0 exceptionalInput 10 5 2 0 0 0 0 0 0).y =
          (3 / 4 : ℚ) *
            (|exceptionalInput 2 (2 - 1)| + |exceptionalInput (2 - 1) (2 - 2)|) ∧
        (hqr_formshift 0 exceptionalInput 10 5 2 0 0 0 0 0 0).w =
          -(7 / 16 : ℚ) *
            (|exceptionalInput 2 (2 - 1)| + |exceptionalInput (2 - 1) (2 - 2)|) *
            (|exceptionalInput 2 (2 - 1)| + |exceptionalInput (2 - 1) (2 - 2)|)) ∧
      ((10 : ℕ) ≠ 10 → (5 : ℕ) ≠ 20 →
        (hqr_formshift 0 exceptionalInput 10 5 2 0 0 0 0 0 0).status = 0 ∧
        (hqr_formshift 0 exceptionalInput 10 5 2 0 0 0 0 0 0).s = 0 ∧
        (hqr_formshift 0 exceptionalInput 10 5 2 0 0 0 0 0 0).t = 0)) :=
  ⟨⟨by decide, by decide⟩,
    formshift_exceptional_shift 0 exceptionalInput 10 5 2 0 0 0 0 0 0
      (by decide) (by decide)⟩

/-- Claim C3: the deflation checks precede the budget check: with `itn = 0`
a size-1 window still yields status 1 and a size-2 window still yields
status 2, and status 3 is only possible for `l + 1 < en`. -/
theorem formshift_deflation_precedes_budget (low : ℕ) (A : ℕ → ℕ → α)
    (its itn en l : ℕ) (s t x y w : α) (hen : 0 < en) (hle : l ≤ en) :
    (itn = 0 →
      ((l = en → (hqr_formshift low A its itn en l s t x y w).status = 1) ∧
       (l = en - 1 → (hqr_formshift low A its itn en l s t x y w).status = 2))) ∧
    ((hqr_formshift low A its itn en l s t x y w).status = 3 → l + 1 < en) := by
  by_cases hl : l = en
  · simp only [hqr_formshift]
    rw [if_pos hl]
    refine ⟨fun _ => ⟨fun _ => rfl, fun hl1 => ?_⟩, fun h3 => ?_⟩
    · omega
    · norm_num at h3
  · by_cases hl1 : l = en - 1
    · simp only [hqr_formshift]
      rw [if_neg hl, if_pos hl1]
      refine ⟨fun _ => ⟨fun h => absurd h hl, fun _ => rfl⟩, fun h3 => ?_⟩
      norm_num at h3
    · by_cases h0 : itn = 0
      · simp only [hqr_formshift]
        rw [if_neg hl, if_neg hl1, if_pos h0]
        exact ⟨fun _ => ⟨fun h => absurd h hl, fun h => absurd h hl1⟩,
          fun _ => by omega⟩
      · simp only [hqr_formshift]
        rw [if_neg hl, if_neg hl1, if_neg h0]
        by_cases hc : its ≠ 10 ∧ itn ≠ 20
        · rw [if_pos hc]
          exact ⟨fun h => absurd h h0, fun h3 => by norm_num at h3⟩
        · rw [if_neg hc]
          exact ⟨fun h => absurd h h0, fun h3 => by norm_num at h3⟩

/-- Witness for C3 on a size-1 window with exhausted budget. -/
theorem formshift_deflation_precedes_budget_witness :
    ((0 : ℕ) < 3 ∧ (3 : ℕ) ≤ 3) ∧
      (((0 : ℕ) = 0 →
        (((3 : ℕ) = 3 →
          (hqr_formshift 0 exceptionalInput 4 0 3 3 0 0 0 0 0).status = 1) ∧
         ((3 : ℕ) = 3 - 1 →
          (hqr_formshift 0 exceptionalInput 4 0 3 3 0 0 0 0 0).status = 2))) ∧
      ((hqr_formshift 0 exceptionalInput 4 0 3 3 0 0 0 0 0).status = 3 →
        (3 : ℕ) + 1 < 3)) :=
  ⟨⟨by decide, by decide⟩,
    formshift_deflation_precedes_budget 0 exceptionalInput 4 0 3 3 0 0 0 0 0
      (by decide) (by decide)⟩

/-- Claim C5: with `l + 1 < en`, `hqr_formshift` returns status 3 exactly
when `itn = 0`; no other condition produces status 3. -/
theorem formshift_status_three_iff (low : ℕ) (A : ℕ → ℕ → α)
    (its itn en l : ℕ) (s t x y w : α) (h : l + 1 < en) :
    (hqr_formshift low A its itn en l s t x y w).status = 3 ↔ itn = 0 := by
  have hne : l ≠ en := by omega
  have hne1 : l ≠ en - 1 := by omega
  simp only [hqr_formshift]
  rw [if_neg hne, if_neg hne1]
  by_cases h0 : itn = 0
  · rw [if_pos h0]
    simp [h0]
  · rw [if_neg h0]
    by_cases hc : its ≠ 10 ∧ itn ≠ 20
    · rw [if_pos hc]
      simp [h0]
    · rw [if_neg hc]
      simp [h0]

/-- Witness for C5 on a concrete window with exhausted budget. -/
theorem formshift_status_three_iff_witness :
    (0 : ℕ) + 1 < 2 ∧
      ((hqr_formshift 0 exceptionalInput 4 0 2 0 0 0 0 0 0).status = 3 ↔
        (0 : ℕ) = 0) :=
  ⟨by decide, formshift_status_three_iff 0 exceptionalInput 4 0 2 0 0 0 0 0 0 (by decide)⟩

/-- Counterexample to claim C6: `hqr_formshift` is not free of matrix
side effects — on the exceptional-shift path (`its = 10`) it decrements the
diagonal of `A` in place, so `A` comes back changed. -/
theorem formshift_mutates_A_counterexample :
    (hqr_formshift 0 exceptionalInput 10 5 2 0 0 0 0 0 0).A ≠ exceptionalInput := by
  intro h
  have h22 := congrFun (congrFun h 2) 2
  simp [hqr_formshift, exceptionalInput] at h22

/-- Claim C6 as amended: `hqr_formshift` leaves `A` unchanged except on the
exceptional-shift path (`l ≠ en`, `l ≠ en - 1`, `itn ≠ 0` and `its = 10` or
`itn = 20`), where exactly the diagonal entries `A(i,i)` with
`low ≤ i ≤ en` are decremented by `A(en,en)` and all other entries are
unchanged. -/
theorem formshift_matrix_frame (low : ℕ) (A : ℕ → ℕ → α)
    (its itn en l : ℕ) (s t x y w : α) :
    ((hqr_formshift low A its itn en l s t x y w).A = A ∨
      (l ≠ en ∧ l ≠ en - 1 ∧ itn ≠ 0 ∧ (its = 10 ∨ itn = 20))) ∧
    (l ≠ en → l ≠ en - 1 → itn ≠ 0 → (its = 10 ∨ itn = 20) →
      ∀ i j, (hqr_formshift low A its itn en l s t x y w).A i j =
        if i = j ∧ low ≤ i ∧ i ≤ en then A i j - A en en else A i j) := by
  constructor
  · by_cases hl : l = en
    · left
      simp only [hqr_formshift]
      rw [if_pos hl]
    · by_cases hl1 : l = en - 1
      · left
        simp only [hqr_formshift]
        rw [if_neg hl, if_pos hl1]
      · by_cases h0 : itn = 0
        · left
          simp only [hqr_formshift]
          rw [if_neg hl, if_neg hl1, if_pos h0]
        · by_cases hc : its ≠ 10 ∧ itn ≠ 20
          · left
            simp only [hqr_formshift]
            rw [if_neg hl, if_neg hl1, if_neg h0, if_pos hc]
          · right
            exact ⟨hl, hl1, h0, by tauto⟩
  · intro hl hl1 h0 hex i j
    have hc : ¬(its ≠ 10 ∧ itn ≠ 20) := by tauto
    simp only [hqr_formshift]
    rw [if_neg hl, if_neg hl1, if_neg h0, if_neg hc]

/-- Witness for the amended C6 on a concrete exceptional-shift call. -/
theorem formshift_matrix_frame_witness :
    ((hqr_formshift 0 exceptionalInput 10 5 2 0 0 0 0 0 0).A = exceptionalInput ∨
      ((0 : ℕ) ≠ 2 ∧ (0 : ℕ) ≠ 2 - 1 ∧ (5 : ℕ) ≠ 0 ∧
        ((10 : ℕ) = 10 ∨ (5 : ℕ) = 20))) ∧
    ((0 : ℕ) ≠ 2 → (0 : ℕ) ≠ 2 - 1 → (5 : ℕ) ≠ 0 →
      ((10 : ℕ) = 10 ∨ (5 : ℕ) = 20) →
      ∀ i j, (hqr_formshift 0 exceptionalInput 10 5 2 0 0 0 0 0 0).A i j =
        if i = j ∧ 0 ≤ i ∧ i ≤ 2 then
          exceptionalInput i j - exceptionalInput 2 2
        else exceptionalInput i j) :=
  formshift_matrix_frame 0 exceptionalInput 10 5 2 0 0 0 0 0 0

/-- Status returned on the `l = en` branch. -/
theorem formshift_status_of_l_eq (low : ℕ) (A : ℕ → ℕ → α) (its itn en l : ℕ)
    (s t x y w : α) (hl : l = en) :
    (hqr_formshift low A its itn en l s t x y w).status = 1 := by
  simp only [hqr_formshift]
  rw [if_pos hl]

/-- Status returned on the `l = en - 1` branch. -/
theorem formshift_status_of_l_eq_pred (low : ℕ) (A : ℕ → ℕ → α)
    (its itn en l : ℕ) (s t x y w : α) (hl : ¬l = en) (hl1 : l = en - 1) :
    (hqr_formshift low A its itn en l s t x y w).status = 2 := by
  simp only [hqr_formshift]
  rw [if_neg hl, if_pos hl1]

/-- Status returned when the budget is exhausted and no block deflates. -/
theorem formshift_status_of_budget (low : ℕ) (A : ℕ → ℕ → α)
    (its itn en l : ℕ) (s t x y w : α) (hl : ¬l = en) (hl1 : ¬l = en - 1)
    (h0 : itn = 0) :
    (hqr_formshift low A its itn en l s t x y w).status = 3 := by
  simp only [hqr_formshift]
  rw [if_neg hl, if_neg hl1, if_pos h0]

/-- Status returned when another QR step is requested. -/
theorem formshift_status_of_step (low : ℕ) (A : ℕ → ℕ → α)
    (its itn en l : ℕ) (s t x y w : α) (hl : ¬l = en) (hl1 : ¬l = en - 1)
    (h0 : ¬itn = 0) :
    (hqr_formshift low A its itn en l s t x y w).status = 0 := by
  simp only [hqr_formshift]
  rw [if_neg hl, if_neg hl1, if_neg h0]
  by_cases hc : its ≠ 10 ∧ itn ≠ 20
  · rw [if_pos hc]
  · rw [if_neg hc]

/-- Inversion: status 2 pins down the window shape `l = en - 1 ≠ en`. -/
theorem formshift_status_two_inv (low : ℕ) (A : ℕ → ℕ → α)
    (its itn en l : ℕ) (s t x y w : α)
    (h : (hqr_formshift low A its itn en l s t x y w).status = 2) :
    ¬l = en ∧ l = en - 1 := by
  by_cases hl : l = en
  · rw [formshift_status_of_l_eq low A its itn en l s t x y w hl] at h
    exact absurd h (by decide)
  · by_cases hl1 : l = en - 1
    · exact ⟨hl, hl1⟩
    · by_cases h0 : itn = 0
      · rw [formshift_status_of_budget low A its itn en l s t x y w hl hl1 h0] at h
        exact absurd h (by decide)
      · rw [formshift_status_of_step low A its itn en l s t x y w hl hl1 h0] at h
        exact absurd h (by decide)

/-- Frame property of the driver loop: eigenvalue entries strictly above the
current window bottom are never written again. -/
theorem hqrLoop_wr_wi_frame (findl : (ℕ → ℕ → α) → ℕ → ℕ → ℕ)
    (qrstep : ℕ → ℕ → (ℕ → ℕ → α) → α → α → α → (ℕ → ℕ → α))
    (resolve : α → α → α → (α × α) × (α × α)) (low : ℕ) :
    ∀ (fuel : ℕ) (st out : DriverState α) (code : ℤ),
      hqrLoop findl qrstep resolve low fuel st = some (code, out) →
      ∀ k : ℕ, st.en < (k : ℤ) → out.wr k = st.wr k ∧ out.wi k = st.wi k := by
  intro fuel
  induction fuel with
  | zero =>
    intro st out code h
    simp [hqrLoop] at h
  | succ n ih =>
    intro st out code h k hk
    simp only [hqrLoop] at h
    split_ifs at h with hlt hs1 hs2 hs3
    · simp only [Option.some.injEq, Prod.mk.injEq] at h
      obtain ⟨hc, ho⟩ := h
      subst ho
      exact ⟨rfl, rfl⟩
    · obtain ⟨hw, hi⟩ := ih _ _ _ h k (by simp only [deflate1]; omega)
      constructor
      · rw [hw]
        simp only [deflate1]
        rw [if_neg (by omega : ¬k = st.en.toNat)]
      · rw [hi]
        simp only [deflate1]
        rw [if_neg (by omega : ¬k = st.en.toNat)]
    · obtain ⟨hw, hi⟩ := ih _ _ _ h k (by simp only [deflate2]; omega)
      constructor
      · rw [hw]
        simp only [deflate2]
        rw [if_neg (by omega : ¬k = st.en.toNat),
          if_neg (by omega : ¬k = st.en.toNat - 1)]
      · rw [hi]
        simp only [deflate2]
        rw [if_neg (by omega : ¬k = st.en.toNat),
          if_neg (by omega : ¬k = st.en.toNat - 1)]
    · simp only [Option.some.injEq, Prod.mk.injEq] at h
      obtain ⟨hc, ho⟩ := h
      subst ho
      exact ⟨rfl, rfl⟩
    · obtain ⟨hw, hi⟩ := ih _ _ _ h k (by simp only [stepState]; omega)
      exact ⟨hw, hi⟩

/-- Shape of the resolved pair: either two real eigenvalues (both imaginary
parts zero), or a conjugate pair — positive imaginary part first, the second
row carrying the same real part and the negated imaginary part. -/
theorem resolveSchurPair_pair_shape (sq : α → α) (hsq : ∀ a : α, 0 < a → 0 < sq a)
    (x y w : α) :
    ((resolveSchurPair sq x y w).1.2 = 0 ∧ (resolveSchurPair sq x y w).2.2 = 0) ∨
    (0 < (resolveSchurPair sq x y w).1.2 ∧
      (resolveSchurPair sq x y w).2.2 = -(resolveSchurPair sq x y w).1.2 ∧
      (resolveSchurPair sq x y w).2.1 = (resolveSchurPair sq x y w).1.1) := by
  by_cases hd : 0 ≤ ((x - y) / 2) * ((x - y) / 2) + w
  · left
    simp only [resolveSchurPair]
    rw [if_pos hd]
    exact ⟨rfl, rfl⟩
  · right
    simp only [resolveSchurPair]
    rw [if_neg hd]
    exact ⟨hsq _ (neg_pos.mpr (lt_of_not_le hd)), rfl, rfl⟩

/-- Claim C7 (spec-modelled driver and 2×2 resolution): after a successful
run, every recorded eigenvalue is real (`wi = 0`) or belongs to a
complex-conjugate pair occupying adjacent rows `k, k+1` with
`wr(k) = wr(k+1)` and `wi(k) = -wi(k+1) ≠ 0` (the positive imaginary part
first). -/
theorem hqr_success_conjugate_pairs (findl : (ℕ → ℕ → α) → ℕ → ℕ → ℕ)
    (qrstep : ℕ → ℕ → (ℕ → ℕ → α) → α → α → α → (ℕ → ℕ → α))
    (sq : α → α) (low : ℕ)
    (hfindl : ∀ (A : ℕ → ℕ → α) (e : ℕ), low ≤ findl A low e ∧ findl A low e ≤ e)
    (hsq : ∀ a : α, 0 < a → 0 < sq a) :
    ∀ (fuel : ℕ) (st out : DriverState α),
      hqrLoop findl qrstep (resolveSchurPair sq) low fuel st = some (0, out) →
      ∀ k : ℕ, low ≤ k → (k : ℤ) ≤ st.en →
        (out.wi k = 0 ∨
         (0 < out.wi k ∧ (k : ℤ) + 1 ≤ st.en ∧ out.wr (k + 1) = out.wr k ∧
           out.wi (k + 1) = -out.wi k) ∨
         (out.wi k < 0 ∧ low < k ∧ out.wr (k - 1) = out.wr k ∧
           out.wi (k - 1) = -out.wi k)) := by
  intro fuel
  induction fuel with
  | zero =>
    intro st out h
    simp [hqrLoop] at h
  | succ n ih =>
    intro st out h k hk1 hk2
    simp only [hqrLoop] at h
    generalize hR : hqr_formshift low st.A st.its st.itn st.en.toNat
      (findl st.A low st.en.toNat) st.s st.t st.x st.y st.w = R at h
    generalize hp : resolveSchurPair sq R.x R.y R.w = p at h
    split_ifs at h with hlt hs1 hs2 hs3
    · exfalso
      omega
    · by_cases hke : (k : ℤ) ≤ st.en - 1
      · have hpat := ih _ _ h k hk1 (by simp only [deflate1]; omega)
        rcases hpat with h0 | ⟨ha, hb, hc, hd⟩ | h2
        · exact Or.inl h0
        · refine Or.inr (Or.inl ⟨ha, ?_, hc, hd⟩)
          simp only [deflate1] at hb
          omega
        · exact Or.inr (Or.inr h2)
      · obtain ⟨hw, hi⟩ := hqrLoop_wr_wi_frame findl qrstep (resolveSchurPair sq)
          low n _ out 0 h k (by simp only [deflate1]; omega)
        left
        rw [hi]
        simp only [deflate1]
        rw [if_pos (by omega : k = st.en.toNat)]
    · have hinv := formshift_status_two_inv low st.A st.its st.itn st.en.toNat
        (findl st.A low st.en.toNat) st.s st.t st.x st.y st.w (hR ▸ hs2)
      obtain ⟨hlne, hleq⟩ := hinv
      have hfl := hfindl st.A st.en.toNat
      have hen1 : 1 ≤ st.en.toNat := by omega
      have hlow1 : low ≤ st.en.toNat - 1 := by omega
      have hshape := resolveSchurPair_pair_shape sq hsq R.x R.y R.w
      rw [hp] at hshape
      by_cases hke : (k : ℤ) ≤ st.en - 2
      · have hpat := ih _ _ h k hk1 (by simp only [deflate2]; omega)
        rcases hpat with h0 | ⟨ha, hb, hc, hd⟩ | h2
        · exact Or.inl h0
        · refine Or.inr (Or.inl ⟨ha, ?_, hc, hd⟩)
          simp only [deflate2] at hb
          omega
        · exact Or.inr (Or.inr h2)
      · have e1 : (deflate2 st st.en.toNat R p).wi st.en.toNat = p.2.2 := by
          simp [deflate2]
        have e2 : (deflate2 st st.en.toNat R p).wr st.en.toNat = p.2.1 := by
          simp [deflate2]
        have e3 : (deflate2 st st.en.toNat R p).wi (st.en.toNat - 1) = p.1.2 := by
          simp only [deflate2]
          rw [if_neg (by omega : ¬st.en.toNat - 1 = st.en.toNat)]
          simp
        have e4 : (deflate2 st st.en.toNat R p).wr (st.en.toNat - 1) = p.1.1 := by
          simp only [deflate2]
          rw [if_neg (by omega : ¬st.en.toNat - 1 = st.en.toNat)]
          simp
        obtain ⟨hwk, hik⟩ := hqrLoop_wr_wi_frame findl qrstep (resolveSchurPair sq)
          low n _ out 0 h st.en.toNat (by simp only [deflate2]; omega)
        obtain ⟨hwp, hip⟩ := hqrLoop_wr_wi_frame findl qrstep (resolveSchurPair sq)
          low n _ out 0 h (st.en.toNat - 1) (by simp only [deflate2]; omega)
        by_cases hkeq : k = st.en.toNat
        · rw [hkeq]
          rcases hshape with ⟨hr1, hr2⟩ | ⟨hc1, hc2, hc3⟩
          · left
            rw [hik, e1, hr2]
          · refine Or.inr (Or.inr ⟨?_, by omega, ?_, ?_⟩)
            · rw [hik, e1, hc2]
              exact neg_neg_of_pos hc1
            · rw [hwp, e4, hwk, e2, hc3]
            · rw [hip, e3, hik, e1, hc2, neg_neg]
        · have hkeq1 : k = st.en.toNat - 1 := by omega
          have hsucc : st.en.toNat - 1 + 1 = st.en.toNat := by omega
          rw [hkeq1, hsucc]
          rcases hshape with ⟨hr1, hr2⟩ | ⟨hc1, hc2, hc3⟩
          · left
            rw [hip, e3, hr1]
          · refine Or.inr (Or.inl ⟨?_, by omega, ?_, ?_⟩)
            · rw [hip, e3]
              exact hc1
            · rw [hwk, e2, hwp, e4, hc3]
            · rw [hik, e1, hip, e3, hc2]
    · exfalso
      simp only [Option.some.injEq, Prod.mk.injEq] at h
      omega
    · exact ih _ _ h k hk1 (by simp only [stepState]; omega)

/-- Witness for C7: a concrete run deflating one 2×2 block whose
discriminant is negative, checked at row 0 of the pair. -/
theorem hqr_success_conjugate_pairs_witness :
    ((0 : ℕ) ≤ 0 ∧ ((0 : ℕ) : ℤ) ≤ c7Start.en) ∧
      (c7Run.2.wi 0 = 0 ∨
       (0 < c7Run.2.wi 0 ∧ ((0 : ℕ) : ℤ) + 1 ≤ c7Start.en ∧
         c7Run.2.wr (0 + 1) = c7Run.2.wr 0 ∧ c7Run.2.wi (0 + 1) = -c7Run.2.wi 0) ∨
       (c7Run.2.wi 0 < 0 ∧ (0 : ℕ) < 0 ∧ c7Run.2.wr (0 - 1) = c7Run.2.wr 0 ∧
         c7Run.2.wi (0 - 1) = -c7Run.2.wi 0)) :=
  ⟨⟨le_refl 0, by decide⟩,
    hqr_success_conjugate_pairs topFind idStep idSqrt 0
      (fun A e => ⟨Nat.zero_le _, Nat.zero_le _⟩) (fun a h => h)
      3 c7Start c7Run.2 rfl 0 (le_refl 0) (by decide)⟩

/-- Claim C8 (spec-modelled driver): every terminating run of the driver
loop either returns code 0 with the whole window deflated (success), or a
positive code equal to the 1-based index `en + 1` of the eigenvalue that
failed to converge; and the `wr`/`wi` entries above the window bottom of
any intermediate state — in particular all eigenvalues deflated before a
failure — are preserved in the output, so a failure is a partial result. -/
theorem hqr_driver_code_spec (findl : (ℕ → ℕ → α) → ℕ → ℕ → ℕ)
    (qrstep : ℕ → ℕ → (ℕ → ℕ → α) → α → α → α → (ℕ → ℕ → α))
    (resolve : α → α → α → (α × α) × (α × α)) (low fuel : ℕ)
    (st out : DriverState α) (code : ℤ)
    (h : hqrLoop findl qrstep resolve low fuel st = some (code, out)) :
    ((code = 0 ∧ out.en < (low : ℤ)) ∨
      (1 ≤ code ∧ code = out.en + 1 ∧ (low : ℤ) ≤ out.en)) ∧
    (∀ k : ℕ, st.en < (k : ℤ) → out.wr k = st.wr k ∧ out.wi k = st.wi k) := by
  refine ⟨?_, hqrLoop_wr_wi_frame findl qrstep resolve low fuel st out code h⟩
  induction fuel generalizing st with
  | zero => simp [hqrLoop] at h
  | succ n ih =>
    simp only [hqrLoop] at h
    split_ifs at h with hlt hs1 hs2 hs3
    · simp only [Option.some.injEq, Prod.mk.injEq] at h
      obtain ⟨hc, ho⟩ := h
      subst ho
      exact Or.inl ⟨hc.symm, hlt⟩
    · exact ih _ h
    · exact ih _ h
    · simp only [Option.some.injEq, Prod.mk.injEq] at h
      obtain ⟨hc, ho⟩ := h
      subst ho
      simp only [failState]
      right
      refine ⟨by omega, by omega, by omega⟩
    · exact ih _ h

/-- Witness for C8: a concrete two-deflation success run; the returned code
is 0 and the entry at index 2 (above the initial window) is untouched. -/
theorem hqr_driver_code_spec_witness :
    (((c8Run.1 = 0 ∧ c8Run.2.en < ((0 : ℕ) : ℤ)) ∨
      (1 ≤ c8Run.1 ∧ c8Run.1 = c8Run.2.en + 1 ∧ ((0 : ℕ) : ℤ) ≤ c8Run.2.en)) ∧
      (c8Run.2.wr 2 = c8Start.wr 2 ∧ c8Run.2.wi 2 = c8Start.wi 2)) :=
  ⟨(hqr_driver_code_spec bottomFind idStep (resolveSchurPair idSqrt) 0 5
      c8Start c8Run.2 c8Run.1 rfl).1,
    (hqr_driver_code_spec bottomFind idStep (resolveSchurPair idSqrt) 0 5
      c8Start c8Run.2 c8Run.1 rfl).2 2 (by decide)⟩

end TlapackHqr
